import Mathlib

/-!
Verification of the hamilton voice-avatar core against its specification.

The development shallowly embeds the logic-bearing parts of the repository:

* `src/app/voice/audioUtils.ts` — low-pass filter, downsampling,
  base64 ⇄ 16-bit-PCM codec;
* `src/app/voice/OpenAIVoiceClient.ts` — explicit-trigger backend session
  (reconnection/backoff, disconnect, triggerResponse);
* `src/app/voice/GeminiVoiceClient.ts` — auto-VAD backend session
  (keepalive, message handling, disconnect);
* `src/app/SimliVoiceAvatar.tsx` — audio chunk dispatcher
  (queue, processNextAudioChunk, interruption handling).

JavaScript numbers appearing in fractional positions are modelled by `ℚ`
(the supported sample-rate pairs keep every intermediate value exactly
representable), 16-bit PCM samples by `ℤ`, byte values by `ℕ`, and strings
by `List Char`.  Fallible code returns `Except`.
-/

namespace AudioUtils

/-- JavaScript `Math.round`: rounds half-way cases toward positive infinity,
i.e. `Math.round x = ⌊x + 1/2⌋`. -/
def jsRound (x : ℚ) : ℤ := ⌊x + 1 / 2⌋

/-- The convolution stage of `applyLowPassFilter`
(`src/app/voice/audioUtils.ts`, lines 33–46).  The coefficient table the
source computes in lines 11–31 (windowed sinc with a Hamming window,
normalised to unit DC gain) uses transcendental floating-point arithmetic
(`Math.PI`, `Math.sin`, `Math.cos`); it is taken here as an explicit
parameter, so every theorem below holds for every coefficient vector — in
particular for the one the source computes.  Out-of-range taps are omitted
(`idx >= 0 && idx < data.length`), exactly as in the source. -/
def applyLowPassFilter (coefficients : List ℚ) (data : List ℤ) : List ℤ :=
  let numberOfTaps := coefficients.length
  let middle : ℤ := ((numberOfTaps : ℤ) - 1) / 2
  (List.range data.length).map (fun (i : ℕ) =>
    jsRound (((List.range numberOfTaps).map (fun (j : ℕ) =>
      let idx : ℤ := (i : ℤ) - (j : ℤ) + middle
      if 0 ≤ idx ∧ idx < (data.length : ℤ) then
        coefficients.getD j 0 * ((data.getD idx.toNat 0 : ℤ) : ℚ)
      else 0)).sum))

/-- `downsampleAudio` (`src/app/voice/audioUtils.ts`, lines 58–99).
Returns the input unchanged when the rates are equal, fails on upsampling,
and otherwise filters (the cutoff `0.45 * outputSampleRate` only affects
the coefficient table, absorbed into `coefficients`) and then linearly
interpolates at ratio `inputSampleRate / outputSampleRate`.  All floored
quantities in the source are nonnegative, so `Math.floor` is `⌊·⌋₊`. -/
def downsampleAudio (coefficients : List ℚ) (audioData : List ℤ)
    (inputSampleRate outputSampleRate : ℕ) : Except String (List ℤ) :=
  if inputSampleRate = outputSampleRate then
    Except.ok audioData
  else if inputSampleRate < outputSampleRate then
    Except.error "Upsampling is not supported"
  else
    let filteredData := applyLowPassFilter coefficients audioData
    let ratio : ℚ := (inputSampleRate : ℚ) / (outputSampleRate : ℚ)
    let newLength : ℕ := ⌊(audioData.length : ℚ) / ratio⌋₊
    Except.ok ((List.range newLength).map (fun (i : ℕ) =>
      let position : ℚ := (i : ℚ) * ratio
      let index : ℕ := ⌊position⌋₊
      let fraction : ℚ := position - (index : ℚ)
      if index + 1 < filteredData.length then
        let a := filteredData.getD index 0
        let b := filteredData.getD (index + 1) 0
        jsRound ((a : ℚ) + fraction * ((b : ℚ) - (a : ℚ)))
      else
        filteredData.getD index 0))

theorem applyLowPassFilter_length (coefficients : List ℚ) (data : List ℤ) :
    (applyLowPassFilter coefficients data).length = data.length := by
  simp only [applyLowPassFilter, List.length_map, List.length_range]

end AudioUtils

namespace AudioUtils

/-- *C1.* For every input sample sequence and every rate pair with positive
target rate and `outputSampleRate ≤ inputSampleRate`, `downsampleAudio`
succeeds and its output length equals
`⌊inputLength * outputSampleRate / inputSampleRate⌋` (natural division). -/
theorem downsampleAudio_length (coefficients : List ℚ) (audioData : List ℤ)
    (inputSampleRate outputSampleRate : ℕ)
    (hpos : 0 < outputSampleRate) (hle : outputSampleRate ≤ inputSampleRate) :
    ∃ out, downsampleAudio coefficients audioData inputSampleRate outputSampleRate =
        Except.ok out ∧
      out.length = audioData.length * outputSampleRate / inputSampleRate := by
  by_cases heq : inputSampleRate = outputSampleRate
  · refine ⟨audioData, by simp [downsampleAudio, heq], ?_⟩
    subst heq
    rw [Nat.mul_div_cancel _ hpos]
  · have hlt : ¬ inputSampleRate < outputSampleRate := not_lt.mpr hle
    have hipos : 0 < inputSampleRate := lt_of_lt_of_le hpos hle
    simp only [downsampleAudio]
    rw [if_neg heq, if_neg hlt]
    refine ⟨_, rfl, ?_⟩
    simp only [List.length_map, List.length_range]
    have hcast : (audioData.length : ℚ) / ((inputSampleRate : ℚ) / (outputSampleRate : ℚ)) =
        ((audioData.length * outputSampleRate : ℕ) : ℚ) / ((inputSampleRate : ℕ) : ℚ) := by
      have ho : ((outputSampleRate : ℕ) : ℚ) ≠ 0 := by
        exact_mod_cast Nat.pos_iff_ne_zero.mp hpos
      have hi : ((inputSampleRate : ℕ) : ℚ) ≠ 0 := by
        exact_mod_cast Nat.pos_iff_ne_zero.mp hipos
      push_cast
      field_simp
    rw [hcast, Nat.floor_div_eq_div]

/-- Concrete instantiation of `downsampleAudio_length`: three samples at
24000 Hz downsample to `⌊3 * 16000 / 24000⌋ = 2` samples. -/
theorem downsampleAudio_length_witness :
    (0 : ℕ) < 16000 ∧ 16000 ≤ 24000 ∧
      ∃ out, downsampleAudio [] [1, 2, 3] 24000 16000 = Except.ok out ∧
        out.length = ([1, 2, 3] : List ℤ).length * 16000 / 24000 :=
  ⟨by decide, by decide,
    downsampleAudio_length [] [1, 2, 3] 24000 16000 (by decide) (by decide)⟩

/-- *C6.* For every input and every coefficient vector, `downsampleAudio`
with `inputSampleRate < outputSampleRate` fails with the upsampling error;
no audio is returned. -/
theorem downsampleAudio_upsample_fails (coefficients : List ℚ)
    (audioData : List ℤ) (inputSampleRate outputSampleRate : ℕ)
    (h : inputSampleRate < outputSampleRate) :
    downsampleAudio coefficients audioData inputSampleRate outputSampleRate =
      Except.error "Upsampling is not supported" := by
  have hne : inputSampleRate ≠ outputSampleRate := Nat.ne_of_lt h
  simp [downsampleAudio, hne, h]

/-- Concrete instantiation of `downsampleAudio_upsample_fails` at the only
upsampling direction the system could ever request, 16000 → 24000. -/
theorem downsampleAudio_upsample_fails_witness :
    (16000 : ℕ) < 24000 ∧
      downsampleAudio [] [1, 2, 3] 16000 24000 =
        Except.error "Upsampling is not supported" :=
  ⟨by decide, downsampleAudio_upsample_fails [] [1, 2, 3] 16000 24000 (by decide)⟩

/-- *C10.* `downsampleAudio` with equal source and target rates returns the
input list unchanged, for every coefficient vector — the equality branch
returns before any filtering happens. -/
theorem downsampleAudio_same_rate_identity (coefficients : List ℚ)
    (audioData : List ℤ) (rate : ℕ) :
    downsampleAudio coefficients audioData rate rate = Except.ok audioData := by
  simp [downsampleAudio]

end AudioUtils

namespace Base64

/-- The base64 alphabet used by `btoa`/`atob`. -/
def base64Chars : List Char :=
  "ABCDEFGHIJKLMNOPQRSTUVWXYZabcdefghijklmnopqrstuvwxyz0123456789+/".toList

/-- Character for the 6-bit value `n`. -/
def encodeByte (n : ℕ) : Char := base64Chars.getD n 'A'

/-- 6-bit value of an alphabet character (its index in `base64Chars`). -/
def decodeChar (c : Char) : ℕ := base64Chars.findIdx (fun x => x == c)

/-- JavaScript `btoa`: base64-encode a byte sequence (the char codes of the
binary string), three bytes per four output characters, `=`-padded. -/
def btoa : List ℕ → List Char
  | [] => []
  | [a] =>
      [encodeByte (a / 4), encodeByte (a % 4 * 16), '=', '=']
  | [a, b] =>
      [encodeByte (a / 4), encodeByte (a % 4 * 16 + b / 16),
       encodeByte (b % 16 * 4), '=']
  | a :: b :: c :: rest =>
      encodeByte (a / 4) :: encodeByte (a % 4 * 16 + b / 16) ::
        encodeByte (b % 16 * 4 + c / 64) :: encodeByte (c % 64) :: btoa rest

/-- Decoding loop of `atob`, after padding removal: four characters per
three bytes, with a final group of three (two bytes) or two (one byte). -/
def atobCore : List Char → List ℕ
  | c1 :: c2 :: c3 :: c4 :: rest =>
      (decodeChar c1 * 4 + decodeChar c2 / 16) ::
        (decodeChar c2 % 16 * 16 + decodeChar c3 / 4) ::
        (decodeChar c3 % 4 * 64 + decodeChar c4) :: atobCore rest
  | [c1, c2, c3] =>
      [decodeChar c1 * 4 + decodeChar c2 / 16,
       decodeChar c2 % 16 * 16 + decodeChar c3 / 4]
  | [c1, c2] =>
      [decodeChar c1 * 4 + decodeChar c2 / 16]
  | _ => []

/-- JavaScript `atob`: strip the `=` padding, then decode. -/
def atob (s : List Char) : List ℕ := atobCore (s.filter (fun c => c ≠ '='))

theorem decodeChar_encodeByte : ∀ n < 64, decodeChar (encodeByte n) = n := by
  decide

theorem encodeByte_ne_pad : ∀ n < 64, encodeByte n ≠ '=' := by
  decide

end Base64

namespace Base64

/-- Round trip of the base64 codec itself: decoding an encoded byte
sequence recovers it exactly, whatever the grouping remainder. -/
theorem atob_btoa : ∀ bs : List ℕ, (∀ x ∈ bs, x < 256) → atob (btoa bs) = bs
  | [], _ => rfl
  | [a], h => by
      have ha : a < 256 := h a (by simp)
      have h1 : a / 4 < 64 := by omega
      have h2 : a % 4 * 16 < 64 := by omega
      have e1 := decodeChar_encodeByte _ h1
      have e2 := decodeChar_encodeByte _ h2
      have n1 := encodeByte_ne_pad _ h1
      have n2 := encodeByte_ne_pad _ h2
      simp only [btoa, atob]
      rw [List.filter_cons_of_pos (by simp [n1]),
        List.filter_cons_of_pos (by simp [n2]),
        List.filter_cons_of_neg (by simp),
        List.filter_cons_of_neg (by simp), List.filter_nil]
      simp only [atobCore]
      rw [e1, e2]
      simp only [List.cons.injEq, and_true]
      omega
  | [a, b], h => by
      have ha : a < 256 := h a (by simp)
      have hb : b < 256 := h b (by simp)
      have h1 : a / 4 < 64 := by omega
      have h2 : a % 4 * 16 + b / 16 < 64 := by omega
      have h3 : b % 16 * 4 < 64 := by omega
      have e1 := decodeChar_encodeByte _ h1
      have e2 := decodeChar_encodeByte _ h2
      have e3 := decodeChar_encodeByte _ h3
      have n1 := encodeByte_ne_pad _ h1
      have n2 := encodeByte_ne_pad _ h2
      have n3 := encodeByte_ne_pad _ h3
      simp only [btoa, atob]
      rw [List.filter_cons_of_pos (by simp [n1]),
        List.filter_cons_of_pos (by simp [n2]),
        List.filter_cons_of_pos (by simp [n3]),
        List.filter_cons_of_neg (by simp), List.filter_nil]
      simp only [atobCore]
      rw [e1, e2, e3]
      simp only [List.cons.injEq, and_true]
      omega
  | a :: b :: c :: rest, h => by
      have ha : a < 256 := h a (by simp)
      have hb : b < 256 := h b (by simp)
      have hc : c < 256 := h c (by simp)
      have hrest : atob (btoa rest) = rest :=
        atob_btoa rest (fun x hx => h x (by simp [hx]))
      have h1 : a / 4 < 64 := by omega
      have h2 : a % 4 * 16 + b / 16 < 64 := by omega
      have h3 : b % 16 * 4 + c / 64 < 64 := by omega
      have h4 : c % 64 < 64 := by omega
      have e1 := decodeChar_encodeByte _ h1
      have e2 := decodeChar_encodeByte _ h2
      have e3 := decodeChar_encodeByte _ h3
      have e4 := decodeChar_encodeByte _ h4
      have n1 := encodeByte_ne_pad _ h1
      have n2 := encodeByte_ne_pad _ h2
      have n3 := encodeByte_ne_pad _ h3
      have n4 := encodeByte_ne_pad _ h4
      simp only [atob] at hrest ⊢
      simp only [btoa]
      rw [List.filter_cons_of_pos (by simp [n1]),
        List.filter_cons_of_pos (by simp [n2]),
        List.filter_cons_of_pos (by simp [n3]),
        List.filter_cons_of_pos (by simp [n4])]
      simp only [atobCore]
      rw [e1, e2, e3, e4, hrest]
      simp only [List.cons.injEq, and_true]
      exact ⟨by omega, by omega, by omega⟩

end Base64

namespace AudioUtils

/-- The little-endian byte pair of one 16-bit sample, as the sample is laid
out in the `Int16Array` buffer viewed through `Uint8Array` (two's
complement, little-endian). -/
def int16ToBytesLE (s : ℤ) : List ℕ :=
  let u := (s % 65536).toNat
  [u % 256, u / 256]

/-- `int16ArrayToBase64` (`src/app/voice/audioUtils.ts`, lines 118–125):
view the sample buffer as bytes, build the binary string character by
character, and `btoa` it. -/
def int16ArrayToBase64 (audio : List ℤ) : List Char :=
  Base64.btoa ((audio.map int16ToBytesLE).flatten)

/-- Reassembly of little-endian byte pairs into signed 16-bit samples, as
`new Int16Array(bytes.buffer)` reads the buffer.  (The JS constructor
raises on an odd byte count; that case cannot arise from the even-length
buffers `int16ArrayToBase64` produces.) -/
def bytesToInt16LE : List ℕ → List ℤ
  | lo :: hi :: rest =>
      (let u := lo + hi * 256
       if u < 32768 then (u : ℤ) else (u : ℤ) - 65536) :: bytesToInt16LE rest
  | _ => []

/-- `base64ToInt16Array` (`src/app/voice/audioUtils.ts`, lines 105–112):
`atob` the string into bytes and view them as 16-bit samples. -/
def base64ToInt16Array (s : List Char) : List ℤ :=
  bytesToInt16LE (Base64.atob s)

theorem bytesToInt16LE_int16ToBytesLE : ∀ audio : List ℤ,
    (∀ s ∈ audio, -32768 ≤ s ∧ s < 32768) →
    bytesToInt16LE ((audio.map int16ToBytesLE).flatten) = audio
  | [], _ => rfl
  | s :: rest, h => by
      have hs := h s (by simp)
      have hr := bytesToInt16LE_int16ToBytesLE rest (fun x hx => h x (by simp [hx]))
      simp only [List.map_cons, List.flatten_cons, int16ToBytesLE,
        List.cons_append, List.singleton_append, List.nil_append,
        List.append_eq, bytesToInt16LE]
      rw [hr]
      have h1 : 0 ≤ s % 65536 := Int.emod_nonneg s (by norm_num)
      have h2 : s % 65536 < 65536 := Int.emod_lt_of_pos s (by norm_num)
      congr 1
      split <;> omega

/-- *C7.* Encoding an arbitrary in-range 16-bit PCM frame with
`int16ArrayToBase64` and decoding it back with `base64ToInt16Array` yields
exactly the original sample sequence. -/
theorem base64_roundTrip (audio : List ℤ)
    (h : ∀ s ∈ audio, -32768 ≤ s ∧ s < 32768) :
    base64ToInt16Array (int16ArrayToBase64 audio) = audio := by
  have hbytes : ∀ x ∈ (audio.map int16ToBytesLE).flatten, x < 256 := by
    intro x hx
    rcases List.mem_flatten.mp hx with ⟨l, hl, hxl⟩
    rcases List.mem_map.mp hl with ⟨s, _, rfl⟩
    have h1 : 0 ≤ s % 65536 := Int.emod_nonneg s (by norm_num)
    have h2 : s % 65536 < 65536 := Int.emod_lt_of_pos s (by norm_num)
    simp only [int16ToBytesLE, List.mem_cons, List.not_mem_nil, or_false] at hxl
    rcases hxl with rfl | rfl
    · omega
    · omega
  unfold base64ToInt16Array int16ArrayToBase64
  rw [Base64.atob_btoa _ hbytes]
  exact bytesToInt16LE_int16ToBytesLE audio h

/-- Concrete instantiation of `base64_roundTrip` on a frame exercising
zero, positive, negative and both extreme sample values. -/
theorem base64_roundTrip_witness :
    (∀ s ∈ ([0, 1, -1, 32767, -32768, 256] : List ℤ), -32768 ≤ s ∧ s < 32768) ∧
      base64ToInt16Array (int16ArrayToBase64 [0, 1, -1, 32767, -32768, 256]) =
        [0, 1, -1, 32767, -32768, 256] :=
  ⟨by decide, base64_roundTrip [0, 1, -1, 32767, -32768, 256] (by decide)⟩

end AudioUtils

/-- The normalized callback events of the `VoiceClientCallbacks` interface
(`src/app/voice/VoiceClient` interface file): audio produced, user
transcript, interruption, connected, error, disconnected. -/
inductive VEvent where
  | audioData (frame : List ℤ)
  | userTranscript (text : List Char)
  | interruption
  | connected
  | errorMsg (msg : List Char)
  | disconnected
deriving DecidableEq

namespace OpenAIVoiceClient

/-- Mutable fields of `OpenAIVoiceClient`
(`src/app/voice/OpenAIVoiceClient.ts`, lines 17–22) that the verified
operations touch — `connected`, whether `client` is non-null, whether the
heartbeat interval is live, and `reconnectAttempts` — plus the scheduling
status of the reconnect backoff `setTimeout` of `attemptReconnect`
(line 248): `pendingReconnect` is true while such a timeout is scheduled
but has not yet fired.  The source discards the timeout id, so no code
path can cancel it. -/
structure OpenAIState where
  connected : Bool
  hasClient : Bool
  heartbeatActive : Bool
  reconnectAttempts : ℕ
  pendingReconnect : Bool
deriving DecidableEq

/-- `RECONNECT_MAX_ATTEMPTS` (`src/app/voice/OpenAIVoiceClient.ts`, line 6). -/
def RECONNECT_MAX_ATTEMPTS : ℕ := 5

/-- `attemptReconnect` (`src/app/voice/OpenAIVoiceClient.ts`, lines
234–263): returns early (scheduling nothing) when already connected or
when the attempt counter has reached the cap; otherwise increments the
counter, clears the heartbeat and schedules a reconnect `setTimeout`
after `min(30000, 1000 * 2 ^ attempt)` ms, discarding the timeout id.
The second component is the scheduled backoff delay (`none` = no
reconnect attempt issued). -/
def attemptReconnect (s : OpenAIState) : OpenAIState × Option ℕ :=
  if s.connected then (s, none)
  else if RECONNECT_MAX_ATTEMPTS ≤ s.reconnectAttempts then (s, none)
  else
    let attempt := s.reconnectAttempts + 1
    ({ s with
        reconnectAttempts := attempt
        heartbeatActive := false
        pendingReconnect := true },
      some (min 30000 (1000 * 2 ^ attempt)))

/-- A run of `n` consecutive connection failures: each failed `connect()`
lands in its catch block, which calls `attemptReconnect` (line 138); the
scheduled backoff delays (or `none` when no attempt is issued) are
collected in order. -/
def reconnectFailureTrace : ℕ → OpenAIState → List (Option ℕ)
  | 0, _ => []
  | n + 1, s =>
      let r := attemptReconnect s
      r.2 :: reconnectFailureTrace n r.1

/-- The body of the reconnect backoff `setTimeout`
(`src/app/voice/OpenAIVoiceClient.ts`, lines 248–262), run when a
scheduled timeout fires: it contains no check of the current session
state (no stale-timer guard), so whenever a timeout is pending it
disconnects and drops the old client handle and then initiates a fresh
`connect()`.  The second component records whether `connect()` was
initiated. -/
def reconnectTimerFire (s : OpenAIState) : OpenAIState × Bool :=
  if s.pendingReconnect then
    ({ s with hasClient := false, pendingReconnect := false }, true)
  else (s, false)

/-- `disconnect` (`src/app/voice/OpenAIVoiceClient.ts`, lines 142–153):
clears the connected flag, the heartbeat interval and the reconnect
counter, drops the client handle, and emits the disconnected callback
exactly once (the wrapped `RealtimeClient` has no close handler wired
back into the callbacks, so no further emission can follow).  It calls
no `clearTimeout`: a reconnect backoff timeout scheduled by
`attemptReconnect` stays pending. -/
def disconnect (s : OpenAIState) : OpenAIState × List VEvent :=
  ({ connected := false, hasClient := false, heartbeatActive := false,
     reconnectAttempts := 0, pendingReconnect := s.pendingReconnect },
    [VEvent.disconnected])

/-- Transport calls `triggerResponse` can make on the wrapped
`RealtimeClient`. -/
inductive RealtimeCall where
  | sendUserMessageContent (text : List Char)
  | createResponse
deriving DecidableEq

/-- The hidden greeting directive injected for AI-speaks-first
(`src/app/voice/OpenAIVoiceClient.ts`, line 183). -/
def greetingText : List Char :=
  "Please greet me and introduce yourself briefly.".toList

/-- `triggerResponse` (`src/app/voice/OpenAIVoiceClient.ts`, lines
177–193): with `aiSpeaksFirst` it injects the hidden greeting message via
`client?.sendUserMessageContent` (which triggers generation internally);
otherwise it calls `client?.createResponse()`.  The optional-chaining
operator makes both calls no-ops when no client exists.  Returns the list
of transport calls performed. -/
def triggerResponse (aiSpeaksFirst hasClient : Bool) : List RealtimeCall :=
  if aiSpeaksFirst then
    if hasClient then [RealtimeCall.sendUserMessageContent greetingText] else []
  else
    if hasClient then [RealtimeCall.createResponse] else []

end OpenAIVoiceClient

/-- *C2.* Starting a disconnected outage episode with a zero attempt
counter, the backoff delays scheduled before reconnect attempts 1..5 are
exactly 2000, 4000, 8000, 16000 and 30000 ms (`min(30000, 1000·2^n)`), and
every connection failure after the fifth issues no further automatic
reconnect attempt — the terminal (`Failed`) condition. -/
theorem openai_reconnect_backoff_then_failed :
    OpenAIVoiceClient.reconnectFailureTrace 9
        { connected := false, hasClient := true, heartbeatActive := true,
          reconnectAttempts := 0, pendingReconnect := false } =
      [some 2000, some 4000, some 8000, some 16000, some 30000,
       none, none, none, none] := by
  decide

/-- *C5.* With a live client, `triggerResponse` with `aiSpeaksFirst=false`
performs exactly one `createResponse` transport call and injects zero user
messages, and with `aiSpeaksFirst=true` it injects exactly one hidden user
message and performs no separate `createResponse` call. -/
theorem openai_triggerResponse_calls :
    (OpenAIVoiceClient.triggerResponse false true =
        [OpenAIVoiceClient.RealtimeCall.createResponse] ∧
      (OpenAIVoiceClient.triggerResponse false true).countP
          (fun c => match c with
            | OpenAIVoiceClient.RealtimeCall.sendUserMessageContent _ => true
            | _ => false) = 0) ∧
    (OpenAIVoiceClient.triggerResponse true true =
        [OpenAIVoiceClient.RealtimeCall.sendUserMessageContent
          OpenAIVoiceClient.greetingText] ∧
      (OpenAIVoiceClient.triggerResponse true true).countP
          (fun c => match c with
            | OpenAIVoiceClient.RealtimeCall.createResponse => true
            | _ => false) = 0) := by
  constructor
  · exact ⟨rfl, rfl⟩
  · exact ⟨rfl, rfl⟩

namespace GeminiVoiceClient

/-- Mutable fields of `GeminiVoiceClient`
(`src/app/voice/GeminiVoiceClient.ts`, lines 14–20) that the verified
operations touch, plus the delivery status of the transport close
callback.  `keepalive` is the keepalive interval state: `some r` means the
interval is live and fires in `r` ms; `none` means no interval.
`pendingClose` records that `session.close()` was called on a live
session, so the transport will still deliver its `onclose` callback
(lines 71–75). -/
structure GeminiState where
  connected : Bool
  hasSession : Bool
  modelSpeaking : Bool
  keepalive : Option ℕ
  pendingClose : Bool
deriving DecidableEq

/-- The keepalive period of `startKeepalive`
(`src/app/voice/GeminiVoiceClient.ts`, line 128): 2000 ms. -/
def KEEPALIVE_PERIOD_MS : ℕ := 2000

/-- `startKeepalive` (lines 109–129): clears any previous interval and
starts a fresh one, so the next fire is a full period away. -/
def startKeepalive (s : GeminiState) : GeminiState :=
  { s with keepalive := some KEEPALIVE_PERIOD_MS }

/-- `stopKeepalive` (lines 144–149). -/
def stopKeepalive (s : GeminiState) : GeminiState :=
  { s with keepalive := none }

/-- `resetKeepalive` (lines 135–139): restart the interval, but only while
connected. -/
def resetKeepalive (s : GeminiState) : GeminiState :=
  if s.connected then startKeepalive s else s

/-- One firing of the keepalive interval callback (lines 111–128): when
connected with a live session and the model is not speaking, a 10 ms
silence frame (160 zero samples at 16 kHz, base64-encoded) is sent over
the transport; otherwise nothing is sent.  Either way the interval keeps
running with its full period. -/
def keepaliveFire (s : GeminiState) : GeminiState × List (List Char) :=
  let s2 := { s with keepalive := some KEEPALIVE_PERIOD_MS }
  if s.connected ∧ s.hasSession ∧ ¬ s.modelSpeaking then
    (s2, [AudioUtils.int16ArrayToBase64 (List.replicate 160 0)])
  else
    (s2, [])

/-- Shape of an inbound Gemini Live message as `handleMessage` reads it
(lines 207–259).  `modelTurnParts` is
`message.serverContent?.modelTurn?.parts`: `none` when the path is absent,
`some parts` otherwise (JavaScript `if (parts)` is true even for an empty
array); each part optionally carries base64 audio in
`part.inlineData?.data`. -/
structure GeminiMessage where
  setupComplete : Bool
  interrupted : Bool
  modelTurnParts : Option (List (Option (List Char)))
  inputTranscription : Option (List Char)
  outputTranscription : Option (List Char)
  turnComplete : Bool

/-- `handleMessage` (`src/app/voice/GeminiVoiceClient.ts`, lines 207–259):
skip setup-complete messages; on interruption clear `modelSpeaking` and
emit the interruption callback (early return); otherwise mark the model
as speaking when a parts array is present and emit one audio event per
part with data (base64-decoded and downsampled 24000 → 16000; a part
whose processing fails is logged and skipped), then emit a user
transcript event when input transcription is present, and finally on turn
completion clear `modelSpeaking` and restart the keepalive timer. -/
def handleMessage (coefficients : List ℚ) (msg : GeminiMessage)
    (s : GeminiState) : GeminiState × List VEvent :=
  if msg.setupComplete then (s, [])
  else if msg.interrupted then
    ({ s with modelSpeaking := false }, [VEvent.interruption])
  else
    let step1 : GeminiState × List VEvent :=
      match msg.modelTurnParts with
      | none => (s, [])
      | some parts =>
          ({ s with modelSpeaking := true },
            parts.filterMap (fun part =>
              match part with
              | none => none
              | some data =>
                  match AudioUtils.downsampleAudio coefficients
                      (AudioUtils.base64ToInt16Array data) 24000 16000 with
                  | Except.ok downsampled => some (VEvent.audioData downsampled)
                  | Except.error _ => none))
    let transcriptEvents : List VEvent :=
      match msg.inputTranscription with
      | some t => [VEvent.userTranscript t]
      | none => []
    let s2 :=
      if msg.turnComplete then
        resetKeepalive { step1.1 with modelSpeaking := false }
      else step1.1
    (s2, step1.2 ++ transcriptEvents)

/-- `disconnect` (`src/app/voice/GeminiVoiceClient.ts`, lines 93–103):
clears the connected flag, stops the keepalive, closes and drops the
session handle, and emits the disconnected callback.  Closing a live
session leaves the transport `onclose` callback pending delivery. -/
def disconnect (s : GeminiState) : GeminiState × List VEvent :=
  ({ connected := false, hasSession := false,
     modelSpeaking := s.modelSpeaking, keepalive := none,
     pendingClose := s.pendingClose || s.hasSession }, [VEvent.disconnected])

/-- The transport `onclose` callback (lines 71–75): clears the connected
flag and emits the disconnected callback again. -/
def oncloseCallback (s : GeminiState) : GeminiState × List VEvent :=
  ({ s with connected := false, pendingClose := false }, [VEvent.disconnected])

/-- A `disconnect()` call together with the delivery of the transport
close callback it leaves pending (if any): the complete set of events one
disconnect call produces. -/
def disconnectRun (s : GeminiState) : GeminiState × List VEvent :=
  let r1 := disconnect s
  if r1.1.pendingClose then
    let r2 := oncloseCallback r1.1
    (r2.1, r1.2 ++ r2.2)
  else r1

end GeminiVoiceClient

/-- *C3 counterexample.* The claim fails at two concrete inputs.  First,
disconnecting a connected Gemini session with a live transport session
emits the disconnected event twice for the single `disconnect()` call —
once synchronously in `disconnect` itself and once more when the
transport delivers the `onclose` callback that `session.close()` leaves
pending — refuting "exactly once per disconnect call".  Second,
`disconnect()` does not tear down all timers: calling the OpenAI
client's `disconnect` while a reconnect backoff timeout is pending (here
after one failed attempt) leaves that timeout scheduled, and when it
fires — having no stale-state guard — it initiates a fresh `connect()`,
resurrecting the session the caller just tore down. -/
theorem disconnect_claim_counterexample :
    ((GeminiVoiceClient.disconnectRun
        { connected := true, hasSession := true, modelSpeaking := false,
          keepalive := some 2000, pendingClose := false }).2 =
      [VEvent.disconnected, VEvent.disconnected] ∧
    (GeminiVoiceClient.disconnectRun
        { connected := true, hasSession := true, modelSpeaking := false,
          keepalive := some 2000, pendingClose := false }).2.length ≠ 1) ∧
    ((OpenAIVoiceClient.disconnect
        { connected := false, hasClient := true, heartbeatActive := false,
          reconnectAttempts := 1, pendingReconnect := true }).1.pendingReconnect =
      true ∧
    (OpenAIVoiceClient.reconnectTimerFire
        (OpenAIVoiceClient.disconnect
          { connected := false, hasClient := true, heartbeatActive := false,
            reconnectAttempts := 1, pendingReconnect := true }).1).2 = true) := by
  decide

/-- *C3 (amended).* `disconnect()` is valid from every state and always
emits the disconnected event.  OpenAI client: it drops the client handle,
clears the heartbeat interval and the reconnect counter, and emits the
event exactly once per disconnect call from any state (idempotent if
already idle) — but it does not cancel a pending reconnect backoff
timeout, which, having no stale-state guard, later fires and initiates a
fresh `connect()`.  Gemini client: it emits the event exactly once
synchronously and tears down the session handle and the keepalive timer,
but when a live transport session existed the later transport close
callback emits the event a second time, so a disconnect of a live
session yields two emissions in total (without a live session, exactly
one). -/
theorem disconnect_teardown_and_emissions :
    (∀ s : OpenAIVoiceClient.OpenAIState,
        OpenAIVoiceClient.disconnect s =
          ({ connected := false, hasClient := false, heartbeatActive := false,
             reconnectAttempts := 0, pendingReconnect := s.pendingReconnect },
            [VEvent.disconnected])) ∧
    (∀ c h hb n,
        OpenAIVoiceClient.reconnectTimerFire
            { connected := c, hasClient := h, heartbeatActive := hb,
              reconnectAttempts := n, pendingReconnect := true } =
          ({ connected := c, hasClient := false, heartbeatActive := hb,
             reconnectAttempts := n, pendingReconnect := false }, true)) ∧
    (∀ c h ms k p,
        (GeminiVoiceClient.disconnect
            { connected := c, hasSession := h, modelSpeaking := ms,
              keepalive := k, pendingClose := p }).2 = [VEvent.disconnected] ∧
        (GeminiVoiceClient.disconnect
            { connected := c, hasSession := h, modelSpeaking := ms,
              keepalive := k, pendingClose := p }).1.connected = false ∧
        (GeminiVoiceClient.disconnect
            { connected := c, hasSession := h, modelSpeaking := ms,
              keepalive := k, pendingClose := p }).1.hasSession = false ∧
        (GeminiVoiceClient.disconnect
            { connected := c, hasSession := h, modelSpeaking := ms,
              keepalive := k, pendingClose := p }).1.keepalive = none) ∧
    (∀ c ms k,
        (GeminiVoiceClient.disconnectRun
            { connected := c, hasSession := false, modelSpeaking := ms,
              keepalive := k, pendingClose := false }).2 =
          [VEvent.disconnected]) ∧
    (∀ c ms k,
        (GeminiVoiceClient.disconnectRun
            { connected := c, hasSession := true, modelSpeaking := ms,
              keepalive := k, pendingClose := false }).2 =
          [VEvent.disconnected, VEvent.disconnected]) := by
  refine ⟨fun s => rfl, fun c h hb n => rfl,
    fun c h ms k p => ⟨rfl, rfl, rfl, rfl⟩,
    fun c ms k => rfl, fun c ms k => rfl⟩

/-- *C4.* The Auto-VAD keepalive discipline: (1) a keepalive fire while
the model is speaking sends no silence frame; (2) a keepalive fire never
changes `modelSpeaking`, so the quiet period persists across fires;
(3) a message carrying model-turn parts (and not yet completing the turn)
leaves the session marked as mid-response; (4) a message completing the
turn while connected clears `modelSpeaking` and restarts the keepalive
interval at its full 2000 ms period; (5) an interruption message also
clears `modelSpeaking`, ending the mid-response window. -/
theorem gemini_keepalive_discipline :
    (∀ c h k p,
        (GeminiVoiceClient.keepaliveFire
            { connected := c, hasSession := h, modelSpeaking := true,
              keepalive := k, pendingClose := p }).2 = []) ∧
    (∀ s, ((GeminiVoiceClient.keepaliveFire s).1).modelSpeaking =
        s.modelSpeaking) ∧
    (∀ coefficients parts it ot c h ms k p,
        ((GeminiVoiceClient.handleMessage coefficients
            { setupComplete := false, interrupted := false,
              modelTurnParts := some parts, inputTranscription := it,
              outputTranscription := ot, turnComplete := false }
            { connected := c, hasSession := h, modelSpeaking := ms,
              keepalive := k, pendingClose := p }).1).modelSpeaking = true) ∧
    (∀ coefficients mtp it ot h ms k p,
        ((GeminiVoiceClient.handleMessage coefficients
            { setupComplete := false, interrupted := false,
              modelTurnParts := mtp, inputTranscription := it,
              outputTranscription := ot, turnComplete := true }
            { connected := true, hasSession := h, modelSpeaking := ms,
              keepalive := k, pendingClose := p }).1).keepalive =
          some GeminiVoiceClient.KEEPALIVE_PERIOD_MS ∧
        ((GeminiVoiceClient.handleMessage coefficients
            { setupComplete := false, interrupted := false,
              modelTurnParts := mtp, inputTranscription := it,
              outputTranscription := ot, turnComplete := true }
            { connected := true, hasSession := h, modelSpeaking := ms,
              keepalive := k, pendingClose := p }).1).modelSpeaking = false) ∧
    (∀ coefficients mtp it ot tc s,
        ((GeminiVoiceClient.handleMessage coefficients
            { setupComplete := false, interrupted := true,
              modelTurnParts := mtp, inputTranscription := it,
              outputTranscription := ot, turnComplete := tc }
            s).1).modelSpeaking = false) := by
  refine ⟨?_, ?_, ?_, ?_, ?_⟩
  · intro c h k p
    simp [GeminiVoiceClient.keepaliveFire]
  · intro s
    simp only [GeminiVoiceClient.keepaliveFire]
    split <;> rfl
  · intro coefficients parts it ot c h ms k p
    simp [GeminiVoiceClient.handleMessage]
  · intro coefficients mtp it ot h ms k p
    rcases mtp with _ | parts <;>
      simp [GeminiVoiceClient.handleMessage, GeminiVoiceClient.resetKeepalive,
        GeminiVoiceClient.startKeepalive]
  · intro coefficients mtp it ot tc s
    simp [GeminiVoiceClient.handleMessage]

namespace SimliVoiceAvatar

/-- The chunk dispatcher state (`src/app/SimliVoiceAvatar.tsx`, lines
52–53): the pending audio queue `audioChunkQueueRef` and the in-flight
flag `isProcessingChunkRef`. -/
structure DispatcherState where
  audioChunkQueue : List (List ℤ)
  isProcessingChunk : Bool
deriving DecidableEq

/-- `processNextAudioChunk` (`src/app/SimliVoiceAvatar.tsx`, lines
106–127): while a chunk is queued and no dispatch is in progress, set the
in-progress flag, shift the head chunk, hand it to the sink
(`simliClient.sendAudioData`), clear the flag and recurse.  Returns the
new state and the chunks handed to the sink, in order. -/
def processNextAudioChunk : DispatcherState → DispatcherState × List (List ℤ)
  | ⟨[], p⟩ => (⟨[], p⟩, [])
  | ⟨chunk :: rest, true⟩ => (⟨chunk :: rest, true⟩, [])
  | ⟨chunk :: rest, false⟩ =>
      let r := processNextAudioChunk ⟨rest, false⟩
      (r.1, chunk :: r.2)

/-- The `onAudioData` callback (`src/app/SimliVoiceAvatar.tsx`, lines
242–247): push the frame onto the queue and begin dispatching unless a
dispatch is already in progress. -/
def onAudioData (audio : List ℤ) (s : DispatcherState) :
    DispatcherState × List (List ℤ) :=
  let s1 : DispatcherState :=
    ⟨s.audioChunkQueue ++ [audio], s.isProcessingChunk⟩
  if s.isProcessingChunk then (s1, []) else processNextAudioChunk s1

/-- The `onInterruption` callback (`src/app/SimliVoiceAvatar.tsx`, lines
251–256): clear the queue and the in-progress flag (the sink-side
`ClearBuffer` call lies outside the dispatcher state); nothing still
queued is ever handed to the sink. -/
def onInterruption (_s : DispatcherState) : DispatcherState :=
  ⟨[], false⟩

/-- A sequence of `onAudioData` calls, collecting everything handed to
the sink in order. -/
def runEnqueues : List (List ℤ) → DispatcherState → DispatcherState × List (List ℤ)
  | [], s => (s, [])
  | f :: fs, s =>
      let r1 := onAudioData f s
      let r2 := runEnqueues fs r1.1
      (r2.1, r1.2 ++ r2.2)

theorem runEnqueues_from_idle :
    ∀ frames : List (List ℤ),
      runEnqueues frames ⟨[], false⟩ = (⟨[], false⟩, frames)
  | [] => rfl
  | f :: fs => by
      have ih := runEnqueues_from_idle fs
      simp [runEnqueues, onAudioData, processNextAudioChunk, ih]

end SimliVoiceAvatar

/-- *C8.* Starting from the idle dispatcher, any sequence of enqueued
frames is handed to the sink exactly in arrival order, with no frame
skipped, duplicated or reordered, and the queue is drained; moreover,
while a dispatch is marked in progress, `processNextAudioChunk` hands
nothing to the sink, so at most one frame is in flight at a time. -/
theorem dispatcher_fifo_order :
    (∀ frames : List (List ℤ),
        SimliVoiceAvatar.runEnqueues frames ⟨[], false⟩ =
          (⟨[], false⟩, frames)) ∧
    (∀ queue : List (List ℤ),
        (SimliVoiceAvatar.processNextAudioChunk ⟨queue, true⟩).2 = []) := by
  refine ⟨SimliVoiceAvatar.runEnqueues_from_idle, ?_⟩
  intro queue
  cases queue <;> simp [SimliVoiceAvatar.processNextAudioChunk]

/-- *C9.* An interruption clears every frame still in the pending queue
and resets the in-progress flag — none of the cleared frames is ever
handed to the sink afterwards — while every frame enqueued after the
interruption is still dispatched normally, in order. -/
theorem dispatcher_interruption_clears :
    ∀ s : SimliVoiceAvatar.DispatcherState,
      (SimliVoiceAvatar.onInterruption s).audioChunkQueue = [] ∧
      (SimliVoiceAvatar.onInterruption s).isProcessingChunk = false ∧
      ∀ frames : List (List ℤ),
        SimliVoiceAvatar.runEnqueues frames (SimliVoiceAvatar.onInterruption s) =
          (⟨[], false⟩, frames) := by
  intro s
  exact ⟨rfl, rfl, SimliVoiceAvatar.runEnqueues_from_idle⟩
